import Mathlib

/-!
Verification of the scoring-aggregation-ranking pipeline of the
Ollama-Prototype repository.

The embedding models:
  * `llmutils.extract_json`  — the Output Extractor (JSON recovery over raw
    oracle text), including a model of Python `json.loads` in strict mode;
  * `jobfinder.normalize_list_field` — the Field Normalizer;
  * the pydantic schemas `CVFit` and `RankingResult` (`schemas.py`) as
    validation functions over parsed JSON values;
  * `jobfinder.aggregate_cv_scores` — the Aggregator;
  * the control flow of `jobfinder.main` — sampling, ranking validation and
    persistence (run documents and metrics rows).

Python floats are idealized as exact rationals (`ℚ`); Python dicts are
association lists with unique keys (the JSON parser applies the
last-key-wins update of `dict`, and updates keep the key position, as
Python dicts do).
-/

/-- A JSON value as produced by Python `json.loads` (floats idealized as
exact rationals; `NaN`/`Infinity` extensions not modelled). -/
inductive JVal where
  | null
  | bool (b : Bool)
  | num (q : ℚ)
  | str (s : String)
  | arr (l : List JVal)
  | obj (l : List (String × JVal))

/-- Python dict lookup `d.get(k)` on an association list with unique keys. -/
def dictGet : List (String × JVal) → String → Option JVal
  | [], _ => none
  | (k, v) :: t, key => if k = key then some v else dictGet t key

/-- Python dict update `d[k] = v`: replace the first binding of `k`
(keeping its position, as Python dicts do) or append a new binding. -/
def dictSet : List (String × JVal) → String → JVal → List (String × JVal)
  | [], k, v => [(k, v)]
  | p :: t, k, v => if p.1 = k then (k, v) :: t else p :: dictSet t k v

mutual

/-- Python `repr` of a JSON-derived value (used by `str` on non-strings). -/
def pyRepr : JVal → String
  | .null => "None"
  | .bool b => if b then "True" else "False"
  | .num q => toString q
  | .str s => "\x27" ++ s ++ "\x27"
  | .arr l => "[" ++ String.intercalate ", " (pyReprList l) ++ "]"
  | .obj l => "\x7b" ++ String.intercalate ", " (pyReprPairs l) ++ "\x7d"

def pyReprList : List JVal → List String
  | [] => []
  | v :: t => pyRepr v :: pyReprList t

def pyReprPairs : List (String × JVal) → List String
  | [] => []
  | (k, v) :: t => ("\x27" ++ k ++ "\x27: " ++ pyRepr v) :: pyReprPairs t

end

/-- Python `str(v)` for a JSON-derived value. -/
def pyStr : JVal → String
  | .str s => s
  | v => pyRepr v

/-- The whitespace set of Python `str.strip()` and of `\s` in `re`
(ASCII part). -/
def isPySpace (c : Char) : Bool :=
  c = ' ' || c = '\t' || c = '\n' || c = '\r' || c = '\x0b' || c = '\x0c'

/-- Python `s.strip()`. -/
def pyStrip (s : String) : String :=
  String.mk (((s.data.dropWhile isPySpace).reverse.dropWhile isPySpace).reverse)

/- ===== jobfinder.normalize_list_field ===== -/

def NOT_SPECIFIED : String := "Not specified"

/-- Model of `jobfinder.normalize_list_field(value, min_items=3)`.
The input is `data.get(key)`: `none` models a missing key. -/
def normalize_list_field (value : Option JVal) (min_items : Nat) : List String :=
  let wrapped : Option JVal :=
    match value with
    | some (.str s) => some (.arr [.str s])
    | v => v
  match wrapped with
  | some (.arr l) =>
    let v1 := (l.map pyStr).filter (fun s => pyStrip s != "")
    (v1 ++ List.replicate (min_items - v1.length) NOT_SPECIFIED).take min_items
  | _ => List.replicate min_items NOT_SPECIFIED

/- ===== llmutils.extract_json: a model of json.loads (strict mode) ===== -/

/-- JSON whitespace accepted between tokens by `json.loads`. -/
def isJsonWs (c : Char) : Bool :=
  c = ' ' || c = '\t' || c = '\n' || c = '\r'

def skipWs : List Char → List Char
  | [] => []
  | c :: t => if isJsonWs c then skipWs t else c :: t

def hexVal? (c : Char) : Option Nat :=
  if '0' ≤ c ∧ c ≤ '9' then some (c.toNat - 48)
  else if 'a' ≤ c ∧ c ≤ 'f' then some (c.toNat - 87)
  else if 'A' ≤ c ∧ c ≤ 'F' then some (c.toNat - 55)
  else none

def escChar? : Char → Option Char
  | '"' => some '"'
  | '\\' => some '\\'
  | '/' => some '/'
  | 'b' => some (Char.ofNat 8)
  | 'f' => some (Char.ofNat 12)
  | 'n' => some '\n'
  | 'r' => some '\r'
  | 't' => some '\t'
  | _ => none

/-- Body of a JSON string after the opening quote.  Strict mode: raw
control characters (below 0x20) are rejected, as by `json.loads`. -/
def parseStringBody (fuel : Nat) (cs : List Char) (acc : List Char) :
    Option (String × List Char) :=
  match fuel with
  | 0 => none
  | fuel + 1 =>
    match cs with
    | [] => none
    | c :: t =>
      if c = '"' then some (String.mk acc.reverse, t)
      else if c = '\\' then
        match t with
        | [] => none
        | e :: t2 =>
          if e = 'u' then
            match t2 with
            | a :: b :: c2 :: d :: t3 =>
              match hexVal? a, hexVal? b, hexVal? c2, hexVal? d with
              | some x1, some x2, some x3, some x4 =>
                parseStringBody fuel t3
                  (Char.ofNat (((x1 * 16 + x2) * 16 + x3) * 16 + x4) :: acc)
              | _, _, _, _ => none
            | _ => none
          else
            match escChar? e with
            | some ec => parseStringBody fuel t2 (ec :: acc)
            | none => none
      else if c.toNat < 32 then none
      else parseStringBody fuel t (c :: acc)

def digVal? (c : Char) : Option Nat :=
  if '0' ≤ c ∧ c ≤ '9' then some (c.toNat - 48) else none

def takeDigits : List Char → List Nat × List Char
  | [] => ([], [])
  | c :: t =>
    match digVal? c with
    | some d =>
      let p := takeDigits t
      (d :: p.1, p.2)
    | none => ([], c :: t)

def digitsToNat (ds : List Nat) : Nat := ds.foldl (fun a d => a * 10 + d) 0

/-- The JSON number grammar (`-?int frac? exp?`), evaluated exactly in ℚ. -/
def parseNumber (cs : List Char) : Option (ℚ × List Char) :=
  let signed : Bool × List Char :=
    match cs with
    | '-' :: t => (true, t)
    | _ => (false, cs)
  match takeDigits signed.2 with
  | ([], _) => none
  | (d :: ds, rest) =>
    if d = 0 ∧ ds ≠ [] then none
    else
      let ip : ℚ := (digitsToNat (d :: ds) : ℚ)
      let withFrac : Option (ℚ × List Char) :=
        match rest with
        | '.' :: t =>
          match takeDigits t with
          | ([], _) => none
          | (f :: fs, r2) =>
            some (ip + (digitsToNat (f :: fs) : ℚ) / ((10 : ℚ) ^ (f :: fs).length), r2)
        | _ => some (ip, rest)
      match withFrac with
      | none => none
      | some (v1, r2) =>
        let sgn : ℚ := if signed.1 then -1 else 1
        match r2 with
        | e :: t =>
          if e = 'e' ∨ e = 'E' then
            let es : Bool × List Char :=
              match t with
              | '+' :: u => (false, u)
              | '-' :: u => (true, u)
              | _ => (false, t)
            match takeDigits es.2 with
            | ([], _) => none
            | (x :: xs, r3) =>
              let ex := digitsToNat (x :: xs)
              if es.1 then some (sgn * (v1 / (10 : ℚ) ^ ex), r3)
              else some (sgn * (v1 * (10 : ℚ) ^ ex), r3)
          else some (sgn * v1, e :: t)
        | [] => some (sgn * v1, [])

def chopLit (cs : List Char) (lit : List Char) : Option (List Char) :=
  match lit with
  | [] => some cs
  | c :: lt =>
    match cs with
    | [] => none
    | x :: xs => if x = c then chopLit xs lt else none

mutual

/-- Recursive-descent model of `json.loads` value parsing. -/
def parseVal : Nat → List Char → Option (JVal × List Char)
  | 0, _ => none
  | fuel + 1, cs =>
    match skipWs cs with
    | [] => none
    | c :: t =>
      if c = '"' then
        match parseStringBody (t.length + 1) t [] with
        | some (s, r) => some (.str s, r)
        | none => none
      else if c = '{' then
        match skipWs t with
        | '}' :: r => some (.obj [], r)
        | _ => parseMembers fuel t []
      else if c = '[' then
        match skipWs t with
        | ']' :: r => some (.arr [], r)
        | _ => parseElems fuel t []
      else if c = 't' then
        match chopLit t ['r', 'u', 'e'] with
        | some r => some (.bool true, r)
        | none => none
      else if c = 'f' then
        match chopLit t ['a', 'l', 's', 'e'] with
        | some r => some (.bool false, r)
        | none => none
      else if c = 'n' then
        match chopLit t ['u', 'l', 'l'] with
        | some r => some (.null, r)
        | none => none
      else
        match parseNumber (c :: t) with
        | some (q, r) => some (.num q, r)
        | none => none

def parseMembers (fuel : Nat) (cs : List Char) (acc : List (String × JVal)) :
    Option (JVal × List Char) :=
  match fuel with
  | 0 => none
  | fuel + 1 =>
    match skipWs cs with
    | '"' :: t =>
      match parseStringBody (t.length + 1) t [] with
      | none => none
      | some (k, r1) =>
        match skipWs r1 with
        | ':' :: r2 =>
          match parseVal fuel r2 with
          | none => none
          | some (v, r3) =>
            match skipWs r3 with
            | ',' :: r4 => parseMembers fuel r4 (dictSet acc k v)
            | '}' :: r4 => some (.obj (dictSet acc k v), r4)
            | _ => none
        | _ => none
    | _ => none

def parseElems (fuel : Nat) (cs : List Char) (acc : List JVal) :
    Option (JVal × List Char) :=
  match fuel with
  | 0 => none
  | fuel + 1 =>
    match parseVal fuel cs with
    | none => none
    | some (v, r1) =>
      match skipWs r1 with
      | ',' :: r2 => parseElems fuel r2 (acc ++ [v])
      | ']' :: r2 => some (.arr (acc ++ [v]), r2)
      | _ => none

end

/-- Python `json.loads` (strict mode, default options). -/
def json_loads (s : String) : Option JVal :=
  match parseVal (s.data.length + 1) s.data with
  | some (v, rest) => if (skipWs rest).isEmpty then some v else none
  | none => none

/- ===== llmutils.extract_json: fence stripping and brace-span search ===== -/

/-- Model of `re.sub(r"^```(?:json)?\s*", "", text)`. -/
def stripLeadFence (s : String) : String :=
  let cs := s.data
  if cs.take 3 = ['`', '`', '`'] then
    let rest := cs.drop 3
    let rest2 := if rest.take 4 = ['j', 's', 'o', 'n'] then rest.drop 4 else rest
    String.mk (rest2.dropWhile isPySpace)
  else s

/-- Model of `re.sub(r"\s*```$", "", text)` on text with no trailing whitespace. -/
def stripTrailFence (s : String) : String :=
  let rcs := s.data.reverse
  if rcs.take 3 = ['`', '`', '`'] then
    String.mk (((rcs.drop 3).dropWhile isPySpace).reverse)
  else s

/-- Preprocessing of `extract_json`: `text.strip()` then the two fence
substitutions. -/
def fencePre (s : String) : String := stripTrailFence (stripLeadFence (pyStrip s))

/-- Model of `re.search(r"\{.*\}", text, re.DOTALL)`: the greedy span from the first
`{` to the last `}` (when the first `{` precedes the last `}`). -/
def braceSpan (s : String) : Option String :=
  let cs := s.data
  match cs.findIdx? (fun c => c = '{'), cs.reverse.findIdx? (fun c => c = '}') with
  | some i, some k =>
    let j := cs.length - 1 - k
    if i < j then some (String.mk ((cs.drop i).take (j - i + 1))) else none
  | _, _ => none

/-- Model of `re.sub(r"[\x00-\x1F\x7F]", "", candidate)`. -/
def stripCtl (s : String) : String :=
  String.mk (s.data.filter (fun c => !(c.toNat ≤ 31 || c.toNat = 127)))

/-- Model of `llmutils.extract_json`: direct parse of the fence-stripped text, then a
greedy brace-span parse with control characters removed; the error strings
stand for the `ValueError` and `json.JSONDecodeError` raised by the code. -/
def extract_json (text : String) : Except String JVal :=
  let t := fencePre text
  match json_loads t with
  | some v => .ok v
  | none =>
    match braceSpan t with
    | none => .error "No JSON object found in model output."
    | some cand =>
      match json_loads (stripCtl cand) with
      | some v => .ok v
      | none => .error "JSONDecodeError"

def exceptIsError : Except String JVal → Bool
  | .error _ => true
  | .ok _ => false

/- ===== schemas.py: CVFit and RankingResult (pydantic models) ===== -/

/-- Model of `schemas.CVFit` (pydantic): a per-candidate verdict. -/
structure CVFit where
  cv_id : String
  fit_score : ℚ
  invite : String
  strengths : List String
  gaps : List String
  reason : String

/-- Model of `schemas.RankingResult` (pydantic): `recommendation` is an arbitrary
dict, exactly as in the source (`recommendation: dict`). -/
structure RankingResult where
  ranking : List CVFit
  recommendation : List (String × JVal)
  notes : String

/-- pydantic validation of a `str` field. -/
def expectStr : Option JVal → Except String String
  | some (.str s) => .ok s
  | _ => .error "expected a string"

/-- pydantic validation of `fit_score: float = Field(ge=0.0, le=1.0)`
(numeric-string coercion of pydantic lax mode not modelled). -/
def expectScore : Option JVal → Except String ℚ
  | some (.num q) => if 0 ≤ q ∧ q ≤ 1 then .ok q else .error "fit_score out of range"
  | _ => .error "fit_score missing or not a number"

/-- pydantic validation of `invite: Literal["yes", "no"]`. -/
def expectInvite : Option JVal → Except String String
  | some (.str s) => if s = "yes" ∨ s = "no" then .ok s else .error "invite not yes/no"
  | _ => .error "invite missing or not a string"

def strEntries : List JVal → Except String (List String)
  | [] => .ok []
  | .str s :: t =>
    match strEntries t with
    | .ok r => .ok (s :: r)
    | .error e => .error e
  | _ :: _ => .error "expected a string element"

/-- pydantic validation of a `List[str]` field. -/
def expectStrList : Option JVal → Except String (List String)
  | some (.arr l) => strEntries l
  | _ => .error "expected a list of strings"

/-- Model of `CVFit(**data)`: pydantic validation of a parsed object against the
`CVFit` schema (extra keys ignored, as pydantic does by default). -/
def validateCVFit (d : List (String × JVal)) : Except String CVFit :=
  match expectStr (dictGet d "cv_id"), expectScore (dictGet d "fit_score"),
        expectInvite (dictGet d "invite"), expectStrList (dictGet d "strengths"),
        expectStrList (dictGet d "gaps"), expectStr (dictGet d "reason") with
  | .ok cv_id, .ok fit, .ok inv, .ok st, .ok gp, .ok rsn =>
    .ok ⟨cv_id, fit, inv, st, gp, rsn⟩
  | _, _, _, _, _, _ => .error "CVFit validation error"

def validateCVFitVal : JVal → Except String CVFit
  | .obj d => validateCVFit d
  | _ => .error "ranking entry is not an object"

def validateEntries : List JVal → Except String (List CVFit)
  | [] => .ok []
  | v :: t =>
    match validateCVFitVal v with
    | .error e => .error e
    | .ok c =>
      match validateEntries t with
      | .error e => .error e
      | .ok cs => .ok (c :: cs)

def expectArrJ : Option JVal → Except String (List JVal)
  | some (.arr l) => .ok l
  | _ => .error "expected an array"

def expectObjJ : Option JVal → Except String (List (String × JVal))
  | some (.obj l) => .ok l
  | _ => .error "expected an object"

/-- Model of `RankingResult(**rank_data)`: pydantic validation of a parsed object
against the `RankingResult` schema.  Only the structural shape is checked:
`ranking` a list of valid `CVFit`, `recommendation` any dict, `notes` a
string. -/
def validateRankingResult (d : List (String × JVal)) : Except String RankingResult :=
  match expectArrJ (dictGet d "ranking") with
  | .error e => .error e
  | .ok rl =>
    match validateEntries rl with
    | .error e => .error e
    | .ok ranking =>
      match expectObjJ (dictGet d "recommendation"), expectStr (dictGet d "notes") with
      | .ok recomm, .ok notes => .ok ⟨ranking, recomm, notes⟩
      | _, _ => .error "invalid recommendation or notes"

/- ===== jobfinder.aggregate_cv_scores ===== -/

/-- Model of `statistics.mean` (only ever applied to non-empty lists by the code). -/
def mean (l : List ℚ) : ℚ := l.sum / (l.length : ℚ)

/-- Count of occurrences of `x` in `l`. -/
def countOcc (l : List String) (x : String) : Nat := l.countP (fun y => y = x)

/-- The accumulating deduplicated append of the aggregator's nested loops:
`for s in xs: if s not in acc: acc.append(s)`. -/
def dedupAppend : List String → List String → List String
  | acc, [] => acc
  | acc, s :: t => dedupAppend (if s ∈ acc then acc else acc ++ [s]) t

/-- Pick the key of maximal count, keeping the earlier key on ties. -/
def bestKey (l : List String) (best : String) : List String → String
  | [] => best
  | x :: t => bestKey l (if countOcc l x > countOcc l best then x else best) t

/-- Model of `Counter(l).most_common(1)[0][0]`: the value of maximal multiplicity;
ties resolve to the value first encountered (Counter preserves insertion
order and `most_common` sorts stably). -/
def most_common1 (l : List String) : String :=
  match dedupAppend [] l with
  | [] => ""
  | k :: ks => bestKey l k ks

/-- The aggregator's evidence merge across all verdicts in order. -/
def mergeField (f : CVFit → List String) (results : List CVFit) : List String :=
  results.foldl (fun acc r => dedupAppend acc (f r)) []

/-- Model of `jobfinder.aggregate_cv_scores(results)`.  `none` models the exception
raised on an empty input (`mean` and `results[0]` both fail there). -/
def aggregate_cv_scores : List CVFit → Option CVFit
  | [] => none
  | r :: rs =>
    some
      { cv_id := r.cv_id
        fit_score := mean ((r :: rs).map CVFit.fit_score)
        invite := most_common1 ((r :: rs).map CVFit.invite)
        strengths := (mergeField CVFit.strengths (r :: rs)).take 4
        gaps := (mergeField CVFit.gaps (r :: rs)).take 4
        reason := r.reason }

/- ===== jobfinder.main: sampling, ranking validation, persistence ===== -/

/-- The error taxonomy of a run (`§7` of the spec): extraction failures,
schema failures, and the empty-sample-set failure. -/
inductive PipeError where
  | malformedOutput (msg : String)
  | invalidVerdict (msg : String)
  | invalidRanking (msg : String)
  | emptySamples

/-- One row of `logs/metrics.csv`. -/
structure MetricsRow where
  run : String
  model : String
  n_samples : Nat
  invites : Nat
  top1 : String
  ts : Nat

/-- The persisted state: run documents under `logs/runs` and the rows of
`logs/metrics.csv`. -/
structure PersistState where
  runDocs : List RankingResult
  metricsRows : List MetricsRow

/-- Python `len` on a JSON-derived value (scalars raise in Python and are
never reached by the code paths modelled here). -/
def pyLen : JVal → Nat
  | .arr l => l.length
  | .str s => s.length
  | .obj l => l.length
  | _ => 0

/-- Model of `len(result.recommendation.get("invite", []))`. -/
def inviteCount (recomm : List (String × JVal)) : Nat :=
  match dictGet recomm "invite" with
  | some v => pyLen v
  | none => 0

/-- One sampling step of `main`: `chat_json` output through `extract_json`
(inside `chat_json`), then field normalization, then `CVFit(**data)`.
A non-dict payload makes `data.get` fail in Python; it is mapped to an
`invalidVerdict`-style failure here (no claim depends on that case). -/
def processVerdict (d : List (String × JVal)) : Except String CVFit :=
  let d1 := dictSet d "strengths"
    (.arr ((normalize_list_field (dictGet d "strengths") 3).map JVal.str))
  let d2 := dictSet d1 "gaps"
    (.arr ((normalize_list_field (dictGet d1 "gaps") 3).map JVal.str))
  validateCVFit d2

def sampleOne (raw : String) : Except PipeError CVFit :=
  match extract_json raw with
  | .error e => .error (.malformedOutput e)
  | .ok (.obj d) =>
    match processVerdict d with
    | .error e => .error (.invalidVerdict e)
    | .ok v => .ok v
  | .ok _ => .error (.invalidVerdict "payload is not an object")

/-- The inner sampling loop: `n` oracle calls, indexed from `base`. -/
def sampleN (oracle : Nat → String) (base : Nat) : Nat → Except PipeError (List CVFit)
  | 0 => .ok []
  | n + 1 =>
    match sampleOne (oracle base) with
    | .error e => .error e
    | .ok v =>
      match sampleN oracle (base + 1) n with
      | .error e => .error e
      | .ok vs => .ok (v :: vs)

def scoreCandidate (oracle : Nat → String) (n_samples i : Nat) :
    Except PipeError CVFit :=
  match sampleN oracle (i * n_samples) n_samples with
  | .error e => .error e
  | .ok per_run =>
    match aggregate_cv_scores per_run with
    | none => .error .emptySamples
    | some agg => .ok agg

def scoreCands (oracle : Nat → String) (n_samples : Nat) :
    List Nat → Except PipeError (List CVFit)
  | [] => .ok []
  | i :: t =>
    match scoreCandidate oracle n_samples i with
    | .error e => .error e
    | .ok agg =>
      match scoreCands oracle n_samples t with
      | .error e => .error e
      | .ok rest => .ok (agg :: rest)

/-- The control flow of `jobfinder.main`, abstracted over the oracle (call
`k` of the run returns raw text `oracle k`) and over the initial persisted
state.  All persistence happens after the ranking result has validated,
exactly as in the source (writes at lines 193-207 follow the validation at
line 190). -/
def runMain (numCvs n_samples : Nat) (run_name model : String) (ts : Nat)
    (oracle : Nat → String) (st : PersistState) :
    PersistState × Except PipeError RankingResult :=
  match scoreCands oracle n_samples (List.range numCvs) with
  | .error e => (st, .error e)
  | .ok _aggregated =>
    match extract_json (oracle (numCvs * n_samples)) with
    | .error e => (st, .error (.malformedOutput e))
    | .ok (.obj d) =>
      match validateRankingResult d with
      | .error e => (st, .error (.invalidRanking e))
      | .ok result =>
        ({ runDocs := st.runDocs ++ [result]
           metricsRows := st.metricsRows ++
             [{ run := run_name
                model := model
                n_samples := n_samples
                invites := inviteCount result.recommendation
                top1 := match result.ranking with
                        | [] => ""
                        | c :: _ => c.cv_id
                ts := ts }] },
         .ok result)
    | .ok _ => (st, .error (.invalidRanking "rank payload is not an object"))

/- ===== the spec's cross-field consistency rules (§3 RunResult, §4.5) ===== -/

def sortedDescB : List ℚ → Bool
  | [] => true
  | [_] => true
  | a :: b :: t => decide (b ≤ a) && sortedDescB (b :: t)

def strListD (o : Option JVal) : List String :=
  match o with
  | some (.arr l) =>
    l.filterMap (fun v =>
      match v with
      | .str s => some s
      | _ => none)
  | _ => []

/-- The spec's cross-field consistency rules for a RunResult, written from
the spec's words for comparison (the code has no such check):
`recommendation.invite`/`reject` disjoint, their union exactly the `cv_id`
set of `ranking`, and `ranking` sorted by `fit_score` non-increasing. -/
def specRankingConsistent (r : RankingResult) : Bool :=
  let ids := r.ranking.map CVFit.cv_id
  let inv := strListD (dictGet r.recommendation "invite")
  let rej := strListD (dictGet r.recommendation "reject")
  sortedDescB (r.ranking.map CVFit.fit_score) &&
  inv.all (fun s => !(rej.contains s)) &&
  (inv ++ rej).all (fun s => ids.contains s) &&
  ids.all (fun s => (inv ++ rej).contains s)

/- ===== concrete data used by the counterexamples and witnesses ===== -/

/-- A parsed ranking payload that violates every cross-field rule: the
ranking is sorted ascending, `cv1` sits in both `invite` and `reject`,
`cv2` is in neither, and the invited id is a `no`-entry. -/
def rankBadDict : List (String × JVal) :=
  [("ranking", .arr
      [.obj [("cv_id", .str "cv1"), ("fit_score", .num 0), ("invite", .str "no"),
             ("strengths", .arr [.str "s1", .str "s2", .str "s3"]),
             ("gaps", .arr [.str "g1", .str "g2", .str "g3"]),
             ("reason", .str "r1")],
       .obj [("cv_id", .str "cv2"), ("fit_score", .num 1), ("invite", .str "yes"),
             ("strengths", .arr [.str "s4", .str "s5", .str "s6"]),
             ("gaps", .arr [.str "g4", .str "g5", .str "g6"]),
             ("reason", .str "r2")]]),
   ("recommendation", .obj [("invite", .arr [.str "cv1"]),
                            ("reject", .arr [.str "cv1"])]),
   ("notes", .str "ok")]

def rankBadResult : RankingResult :=
  ⟨[⟨"cv1", 0, "no", ["s1", "s2", "s3"], ["g1", "g2", "g3"], "r1"⟩,
    ⟨"cv2", 1, "yes", ["s4", "s5", "s6"], ["g4", "g5", "g6"], "r2"⟩],
   [("invite", .arr [.str "cv1"]), ("reject", .arr [.str "cv1"])],
   "ok"⟩

def c2y : CVFit := ⟨"cv1", 1, "yes", ["s1", "s2", "s3"], ["g1", "g2", "g3"], "r1"⟩

def c2n : CVFit := ⟨"cv1", 0, "no", ["s1", "s2", "s3"], ["g1", "g2", "g3"], "r2"⟩

def c2agg : CVFit :=
  ⟨"cv1", mean ([c2y, c2n].map CVFit.fit_score),
   most_common1 ([c2y, c2n].map CVFit.invite),
   (mergeField CVFit.strengths [c2y, c2n]).take 4,
   (mergeField CVFit.gaps [c2y, c2n]).take 4, "r1"⟩

def v31 : CVFit := ⟨"cv1", 1, "no", ["a1", "a2", "a3"], ["b1", "b2", "b3"], "r"⟩

def v32 : CVFit := ⟨"cv1", 1, "no", ["c1", "c2", "c3"], ["d1", "d2", "d3"], "r"⟩

/-- A sampler response payload with all fields present and valid. -/
def d3 : List (String × JVal) :=
  [("cv_id", .str "cv1"), ("fit_score", .num 1), ("invite", .str "yes"),
   ("strengths", .arr [.str "s1", .str "s2", .str "s3"]),
   ("gaps", .arr [.str "g1", .str "g2", .str "g3"]), ("reason", .str "ok")]

def c3v : CVFit := ⟨"cv1", 1, "yes", ["s1", "s2", "s3"], ["g1", "g2", "g3"], "ok"⟩

def c6a : CVFit := ⟨"cvA", (8 : ℚ)/10, "yes", ["a1", "a2", "a3"], ["b1", "b2", "b3"], "ra"⟩

def c6b : CVFit := ⟨"cvB", (6 : ℚ)/10, "no", ["c1", "c2", "c3"], ["d1", "d2", "d3"], "rb"⟩

def c6c : CVFit := ⟨"cvC", (7 : ℚ)/10, "yes", ["e1", "e2", "e3"], ["f1", "f2", "f3"], "rc"⟩

def c6agg : CVFit :=
  ⟨"cvA", mean ([c6a].map CVFit.fit_score), most_common1 ([c6a].map CVFit.invite),
   (mergeField CVFit.strengths [c6a]).take 4, (mergeField CVFit.gaps [c6a]).take 4, "ra"⟩

def c8a : CVFit := ⟨"idA", 1, "no", ["s1", "s2", "s3"], ["g1", "g2", "g3"], "r"⟩

def c8b : CVFit := ⟨"idB", 1, "no", ["s1", "s2", "s3"], ["g1", "g2", "g3"], "r"⟩

def c8agg : CVFit :=
  ⟨"idA", mean ([c8a].map CVFit.fit_score), most_common1 ([c8a].map CVFit.invite),
   (mergeField CVFit.strengths [c8a]).take 4, (mergeField CVFit.gaps [c8a]).take 4, "r"⟩

/-- A verdict with duplicated strengths (producible by the pipeline, e.g.
from repeated padding or a repetitive oracle). -/
def v9 : CVFit := ⟨"cv1", 1, "no", ["a", "a", "a"], ["g1", "g2", "g3"], "r"⟩

/-- A verdict with duplicate-free strengths and gaps. -/
def c9v : CVFit := ⟨"cv1", 1, "no", ["s1", "s2", "s3"], ["g1", "g2", "g3"], "r"⟩

/-- A sampler response payload whose `strengths` and `gaps` keys are
entirely absent, with all remaining fields valid. -/
def d10 : List (String × JVal) :=
  [("cv_id", .str "cv1"), ("fit_score", .num 1), ("invite", .str "no"),
   ("reason", .str "ok")]

def okStrengths : Except String CVFit → Option (List String)
  | .ok v => some v.strengths
  | .error _ => none

def okGaps : Except String CVFit → Option (List String)
  | .ok v => some v.gaps
  | .error _ => none

/-- The field shapes that the claim C10 is about: the key is entirely
absent, or holds a value that is neither a string nor a list. -/
def illTypedField : Option JVal → Prop
  | none => True
  | some (.str _) => False
  | some (.arr _) => False
  | some _ => True

/-- Validity of the four response fields other than `strengths`/`gaps`. -/
def RestValid (d : List (String × JVal)) : Prop :=
  (∃ s, dictGet d "cv_id" = some (.str s)) ∧
  (∃ q, dictGet d "fit_score" = some (.num q) ∧ 0 ≤ q ∧ q ≤ 1) ∧
  (dictGet d "invite" = some (.str "yes") ∨ dictGet d "invite" = some (.str "no")) ∧
  (∃ s, dictGet d "reason" = some (.str s))

/- ===== helper lemmas ===== -/

theorem dictGet_dictSet_same (d : List (String × JVal)) (k : String) (v : JVal) :
    dictGet (dictSet d k v) k = some v := by
  induction d with
  | nil => simp [dictSet, dictGet]
  | cons p t ih =>
    obtain ⟨pk, pv⟩ := p
    by_cases h : pk = k
    · simp [dictSet, h, dictGet]
    · simp [dictSet, h, dictGet, ih]

theorem dictGet_dictSet_ne (d : List (String × JVal)) (k key : String) (v : JVal)
    (h : k ≠ key) : dictGet (dictSet d k v) key = dictGet d key := by
  induction d with
  | nil => simp [dictSet, dictGet, h]
  | cons p t ih =>
    obtain ⟨pk, pv⟩ := p
    by_cases h2 : pk = k
    · subst h2
      simp [dictSet, dictGet, h]
    · simp [dictSet, h2, dictGet, ih]

theorem strEntries_map (l : List String) : strEntries (l.map JVal.str) = .ok l := by
  induction l with
  | nil => rfl
  | cons s t ih => simp [strEntries, ih]

theorem expectScore_ok (o : Option JVal) (q : ℚ) (h : expectScore o = .ok q) :
    0 ≤ q ∧ q ≤ 1 := by
  match o with
  | none => simp [expectScore] at h
  | some .null => simp [expectScore] at h
  | some (.bool b) => simp [expectScore] at h
  | some (.str s) => simp [expectScore] at h
  | some (.arr l) => simp [expectScore] at h
  | some (.obj l) => simp [expectScore] at h
  | some (.num x) =>
    simp only [expectScore] at h
    split at h
    · injection h with h
      subst h
      assumption
    · simp at h

theorem expectInvite_ok (o : Option JVal) (s : String) (h : expectInvite o = .ok s) :
    s = "yes" ∨ s = "no" := by
  match o with
  | none => simp [expectInvite] at h
  | some .null => simp [expectInvite] at h
  | some (.bool b) => simp [expectInvite] at h
  | some (.num q) => simp [expectInvite] at h
  | some (.arr l) => simp [expectInvite] at h
  | some (.obj l) => simp [expectInvite] at h
  | some (.str x) =>
    simp only [expectInvite] at h
    split at h
    · injection h with h
      subst h
      assumption
    · simp at h

theorem validateCVFit_ok (d : List (String × JVal)) (v : CVFit)
    (h : validateCVFit d = .ok v) :
    expectStr (dictGet d "cv_id") = .ok v.cv_id ∧
    expectScore (dictGet d "fit_score") = .ok v.fit_score ∧
    expectInvite (dictGet d "invite") = .ok v.invite ∧
    expectStrList (dictGet d "strengths") = .ok v.strengths ∧
    expectStrList (dictGet d "gaps") = .ok v.gaps ∧
    expectStr (dictGet d "reason") = .ok v.reason := by
  unfold validateCVFit at h
  split at h
  · injection h with h
    subst h
    refine ⟨?_, ?_, ?_, ?_, ?_, ?_⟩ <;> assumption
  · simp at h

theorem validateCVFitVal_bounds (v : JVal) (c : CVFit)
    (h : validateCVFitVal v = .ok c) :
    (0 ≤ c.fit_score ∧ c.fit_score ≤ 1) ∧ (c.invite = "yes" ∨ c.invite = "no") := by
  match v with
  | .null => simp [validateCVFitVal] at h
  | .bool b => simp [validateCVFitVal] at h
  | .num q => simp [validateCVFitVal] at h
  | .str s => simp [validateCVFitVal] at h
  | .arr l => simp [validateCVFitVal] at h
  | .obj d =>
    have hv := validateCVFit_ok d c h
    exact ⟨expectScore_ok _ _ hv.2.1, expectInvite_ok _ _ hv.2.2.1⟩

theorem validateEntries_ok (l : List JVal) (cs : List CVFit)
    (h : validateEntries l = .ok cs) :
    ∀ c ∈ cs, (0 ≤ c.fit_score ∧ c.fit_score ≤ 1) ∧
      (c.invite = "yes" ∨ c.invite = "no") := by
  induction l generalizing cs with
  | nil =>
    simp [validateEntries] at h
    subst h
    simp
  | cons v t ih =>
    simp only [validateEntries] at h
    cases hv : validateCVFitVal v with
    | error e => rw [hv] at h; simp at h
    | ok c0 =>
      rw [hv] at h
      cases ht : validateEntries t with
      | error e => rw [ht] at h; simp at h
      | ok cs0 =>
        rw [ht] at h
        injection h with h
        subst h
        intro c hc
        rcases List.mem_cons.mp hc with h | h
        · subst h
          exact validateCVFitVal_bounds v c hv
        · exact ih cs0 ht c h

theorem validateRankingResult_entries (d : List (String × JVal)) (r : RankingResult)
    (h : validateRankingResult d = .ok r) :
    ∀ e ∈ r.ranking, (0 ≤ e.fit_score ∧ e.fit_score ≤ 1) ∧
      (e.invite = "yes" ∨ e.invite = "no") := by
  unfold validateRankingResult at h
  cases h1 : expectArrJ (dictGet d "ranking") with
  | error e1 => rw [h1] at h; simp at h
  | ok rl =>
    rw [h1] at h
    dsimp only at h
    cases h2 : validateEntries rl with
    | error e2 => rw [h2] at h; simp at h
    | ok ranking =>
      rw [h2] at h
      dsimp only at h
      split at h
      · injection h with h
        subst h
        exact validateEntries_ok rl ranking h2
      · simp at h

theorem normalize_length (v : Option JVal) (n : Nat) :
    (normalize_list_field v n).length = n := by
  match v with
  | none => simp [normalize_list_field]
  | some .null => simp [normalize_list_field]
  | some (.bool b) => simp [normalize_list_field]
  | some (.num q) => simp [normalize_list_field]
  | some (.obj l) => simp [normalize_list_field]
  | some (.str s) =>
    simp only [normalize_list_field, List.length_take, List.length_append,
      List.length_replicate]
    omega
  | some (.arr l) =>
    simp only [normalize_list_field, List.length_take, List.length_append,
      List.length_replicate]
    omega

theorem normalize_illTyped (o : Option JVal) (h : illTypedField o) :
    normalize_list_field o 3 = List.replicate 3 NOT_SPECIFIED := by
  match o with
  | none => rfl
  | some .null => rfl
  | some (.bool b) => rfl
  | some (.num q) => rfl
  | some (.obj l) => rfl
  | some (.str s) => exact absurd h (by simp [illTypedField])
  | some (.arr l) => exact absurd h (by simp [illTypedField])

theorem normalize_mem_nonblank (v : Option JVal) (s : String)
    (h : s ∈ normalize_list_field v 3) : pyStrip s ≠ "" := by
  have hns : pyStrip NOT_SPECIFIED ≠ "" := by decide
  have harr : ∀ l : List JVal, s ∈ normalize_list_field (some (.arr l)) 3 →
      pyStrip s ≠ "" := by
    intro l hl
    simp only [normalize_list_field] at hl
    have hl2 := List.mem_of_mem_take hl
    rcases List.mem_append.mp hl2 with hm | hm
    · have := (List.mem_filter.mp hm).2
      simpa [bne_iff_ne] using this
    · rw [List.eq_of_mem_replicate hm]
      exact hns
  match v with
  | none =>
    simp only [normalize_list_field] at h
    rw [List.eq_of_mem_replicate h]
    exact hns
  | some .null =>
    simp only [normalize_list_field] at h
    rw [List.eq_of_mem_replicate h]
    exact hns
  | some (.bool b) =>
    simp only [normalize_list_field] at h
    rw [List.eq_of_mem_replicate h]
    exact hns
  | some (.num q) =>
    simp only [normalize_list_field] at h
    rw [List.eq_of_mem_replicate h]
    exact hns
  | some (.obj l) =>
    simp only [normalize_list_field] at h
    rw [List.eq_of_mem_replicate h]
    exact hns
  | some (.str s0) => exact harr [.str s0] h
  | some (.arr l) => exact harr l h

theorem mean_singleton (x : ℚ) : mean [x] = x := by
  simp [mean]

theorem mean_unit (x : ℚ) (xs : List ℚ)
    (h : ∀ y ∈ x :: xs, 0 ≤ y ∧ y ≤ 1) :
    0 ≤ mean (x :: xs) ∧ mean (x :: xs) ≤ 1 := by
  have hlen : (0 : ℚ) < ((x :: xs).length : ℚ) := by
    exact_mod_cast Nat.succ_pos xs.length
  constructor
  · exact div_nonneg (List.sum_nonneg (fun y hy => (h y hy).1)) hlen.le
  · rw [mean, div_le_one hlen]
    have := List.sum_le_card_nsmul (x :: xs) 1 (fun y hy => (h y hy).2)
    simpa [nsmul_eq_mul] using this

theorem dedupAppend_sub (l : List String) :
    ∀ acc, ∀ x ∈ dedupAppend acc l, x ∈ acc ∨ x ∈ l := by
  induction l with
  | nil =>
    intro acc x hx
    exact Or.inl hx
  | cons s t ih =>
    intro acc x hx
    simp only [dedupAppend] at hx
    rcases ih _ x hx with h | h
    · by_cases hs : s ∈ acc
      · rw [if_pos hs] at h
        exact Or.inl h
      · rw [if_neg hs] at h
        rcases List.mem_append.mp h with h | h
        · exact Or.inl h
        · simp only [List.mem_singleton] at h
          subst h
          exact Or.inr (by simp)
    · exact Or.inr (by simp [h])

theorem dedupAppend_head (l : List String) :
    ∀ acc, ∃ t, dedupAppend acc l = acc ++ t := by
  induction l with
  | nil =>
    intro acc
    exact ⟨[], by simp [dedupAppend]⟩
  | cons s t ih =>
    intro acc
    simp only [dedupAppend]
    by_cases hs : s ∈ acc
    · rw [if_pos hs]
      exact ih acc
    · rw [if_neg hs]
      obtain ⟨u, hu⟩ := ih (acc ++ [s])
      exact ⟨s :: u, by simp [hu]⟩

theorem dedupAppend_eq_append (l : List String) :
    ∀ acc, l.Nodup → (∀ x ∈ l, x ∉ acc) → dedupAppend acc l = acc ++ l := by
  induction l with
  | nil =>
    intro acc _ _
    simp [dedupAppend]
  | cons s t ih =>
    intro acc hnd hdis
    simp only [dedupAppend]
    rw [if_neg (hdis s (by simp))]
    rw [ih (acc ++ [s]) hnd.of_cons ?dis]
    · simp
    case dis =>
      intro x hx
      simp only [List.mem_append, List.mem_singleton, not_or]
      constructor
      · exact hdis x (by simp [hx])
      · intro hh
        subst hh
        exact (List.nodup_cons.mp hnd).1 hx

theorem bestKey_mem (l S : List String) :
    ∀ ks best, best ∈ S → (∀ x ∈ ks, x ∈ S) → bestKey l best ks ∈ S := by
  intro ks
  induction ks with
  | nil =>
    intro best hb _
    simpa [bestKey] using hb
  | cons x t ih =>
    intro best hb hks
    simp only [bestKey]
    apply ih
    · by_cases hc : countOcc l x > countOcc l best
      · simpa [hc] using hks x (by simp)
      · simpa [hc] using hb
    · intro y hy
      exact hks y (by simp [hy])

theorem most_common1_singleton (x : String) : most_common1 [x] = x := by
  simp [most_common1, dedupAppend, bestKey]

theorem most_common1_mem (x : String) (xs : List String) :
    most_common1 (x :: xs) ∈ x :: xs := by
  unfold most_common1
  have h0 : dedupAppend [] (x :: xs) = dedupAppend [x] xs := by
    simp [dedupAppend]
  obtain ⟨t, ht⟩ := dedupAppend_head xs [x]
  rw [h0, ht]
  simp only [List.singleton_append]
  apply bestKey_mem (x :: xs) (x :: xs) t x (by simp)
  intro y hy
  have hmem : y ∈ dedupAppend [] (x :: xs) := by
    rw [h0, ht]
    simp [hy]
  rcases dedupAppend_sub (x :: xs) [] y hmem with h | h
  · simp at h
  · exact h

theorem aggregate_ok_fields (r : CVFit) (rs : List CVFit) (agg : CVFit)
    (h : aggregate_cv_scores (r :: rs) = some agg) :
    agg.cv_id = r.cv_id ∧
    agg.fit_score = mean ((r :: rs).map CVFit.fit_score) ∧
    agg.invite = most_common1 ((r :: rs).map CVFit.invite) ∧
    agg.strengths = (mergeField CVFit.strengths (r :: rs)).take 4 ∧
    agg.gaps = (mergeField CVFit.gaps (r :: rs)).take 4 ∧
    agg.reason = r.reason := by
  simp only [aggregate_cv_scores] at h
  injection h with h
  subst h
  exact ⟨rfl, rfl, rfl, rfl, rfl, rfl⟩

theorem findIdx_none (c : Char) : ∀ cs : List Char, c ∉ cs →
    ∀ i, List.findIdx? (fun x => x = c) cs i = none := by
  intro cs
  induction cs with
  | nil =>
    intro _ i
    rfl
  | cons x t ih =>
    intro h i
    have hx : ¬(x = c) := fun hh => h (by simp [hh])
    have ht : c ∉ t := fun hh => h (by simp [hh])
    rw [List.findIdx?_cons, if_neg (by simpa using hx)]
    exact ih ht (i + 1)

theorem braceSpan_none (s : String) (h : '{' ∉ s.data) : braceSpan s = none := by
  unfold braceSpan
  dsimp only
  rw [findIdx_none '{' s.data h 0]

theorem processVerdict_fields (d : List (String × JVal)) (v : CVFit)
    (h : processVerdict d = .ok v) :
    v.strengths = normalize_list_field (dictGet d "strengths") 3 ∧
    v.gaps = normalize_list_field (dictGet d "gaps") 3 := by
  simp only [processVerdict] at h
  rw [dictGet_dictSet_ne d "strengths" "gaps" _ (by decide)] at h
  have hv := validateCVFit_ok _ _ h
  have hst := hv.2.2.2.1
  have hgp := hv.2.2.2.2.1
  rw [dictGet_dictSet_ne _ "gaps" "strengths" _ (by decide),
      dictGet_dictSet_same] at hst
  rw [dictGet_dictSet_same] at hgp
  simp only [expectStrList, strEntries_map] at hst hgp
  injection hst with hst
  injection hgp with hgp
  exact ⟨hst.symm, hgp.symm⟩

theorem processVerdict_ok (d : List (String × JVal)) (h : RestValid d) :
    ∃ v, processVerdict d = .ok v ∧
      v.strengths = normalize_list_field (dictGet d "strengths") 3 ∧
      v.gaps = normalize_list_field (dictGet d "gaps") 3 := by
  obtain ⟨⟨cid, hcid⟩, ⟨q, hq, hq0, hq1⟩, hinv, ⟨rsn, hrsn⟩⟩ := h
  have hinv2 : ∃ si, dictGet d "invite" = some (.str si) ∧
      (si = "yes" ∨ si = "no") := by
    rcases hinv with h | h
    · exact ⟨"yes", h, Or.inl rfl⟩
    · exact ⟨"no", h, Or.inr rfl⟩
  obtain ⟨si, hsi, hsiv⟩ := hinv2
  refine ⟨⟨cid, q, si, normalize_list_field (dictGet d "strengths") 3,
          normalize_list_field (dictGet d "gaps") 3, rsn⟩, ?_, rfl, rfl⟩
  simp only [processVerdict]
  rw [dictGet_dictSet_ne d "strengths" "gaps" _ (by decide)]
  have g1 : ∀ v1 v2 : JVal, ∀ key : String, key ≠ "strengths" → key ≠ "gaps" →
      dictGet (dictSet (dictSet d "strengths" v1) "gaps" v2) key = dictGet d key := by
    intro v1 v2 key hk1 hk2
    rw [dictGet_dictSet_ne _ _ _ _ (Ne.symm hk2), dictGet_dictSet_ne _ _ _ _ (Ne.symm hk1)]
  have gS : ∀ v1 v2 : JVal,
      dictGet (dictSet (dictSet d "strengths" v1) "gaps" v2) "strengths" = some v1 := by
    intro v1 v2
    rw [dictGet_dictSet_ne _ _ _ _ (by decide), dictGet_dictSet_same]
  have gG : ∀ v1 v2 : JVal,
      dictGet (dictSet (dictSet d "strengths" v1) "gaps" v2) "gaps" = some v2 := by
    intro v1 v2
    rw [dictGet_dictSet_same]
  unfold validateCVFit
  rw [g1 _ _ "cv_id" (by decide) (by decide), hcid,
      g1 _ _ "fit_score" (by decide) (by decide), hq,
      g1 _ _ "invite" (by decide) (by decide), hsi,
      gS, gG,
      g1 _ _ "reason" (by decide) (by decide), hrsn]
  simp only [expectStr, expectScore, expectInvite, expectStrList, strEntries_map]
  rw [if_pos ⟨hq0, hq1⟩, if_pos hsiv]

/- ===== claim theorems ===== -/

/-- Claim C1 (counterexample): a parsed ranking object violating every
cross-field consistency rule — ascending sort order, an id in both
`invite` and `reject`, an id in neither, an invited `no`-entry — is
accepted by `RankingResult` validation instead of failing with
`InvalidRanking`. -/
theorem C1_counterexample :
    validateRankingResult rankBadDict = .ok rankBadResult ∧
    specRankingConsistent rankBadResult = false :=
  ⟨rfl, rfl⟩

/-- Claim C1 (amended): ranking validation enforces only the structural
shape — each entry is a valid `CVFit` with `fit_score` in `[0,1]` and
`invite` in `{yes, no}` — while the cross-field consistency rules
(disjointness, partition coverage, sort order) are not validated: an
object violating all of them is accepted unchanged, so the stated
invariant holds only if the oracle complies. -/
theorem C1_validation_shape_only :
    (∀ d r, validateRankingResult d = .ok r →
      ∀ e ∈ r.ranking, (0 ≤ e.fit_score ∧ e.fit_score ≤ 1) ∧
        (e.invite = "yes" ∨ e.invite = "no")) ∧
    (validateRankingResult rankBadDict = .ok rankBadResult ∧
     specRankingConsistent rankBadResult = false) :=
  ⟨validateRankingResult_entries, ⟨rfl, rfl⟩⟩

theorem C1_witness :
    (0 ≤ (0 : ℚ) ∧ (0 : ℚ) ≤ 1) ∧
    (("no" : String) = "yes" ∨ ("no" : String) = "no") :=
  C1_validation_shape_only.1 rankBadDict rankBadResult rfl
    ⟨"cv1", 0, "no", ["s1", "s2", "s3"], ["g1", "g2", "g3"], "r1"⟩
    (by simp [rankBadResult])

/-- Claim C2 (counterexample): the two-sample tie `[yes, no]` aggregates to
invite `yes`, not `no`: `Counter.most_common` resolves ties by first
encounter, not by a conservative prefer-`no` policy. -/
theorem C2_counterexample :
    c2y.invite = "yes" ∧ c2n.invite = "no" ∧
    (aggregate_cv_scores [c2y, c2n]).map CVFit.invite = some "yes" :=
  ⟨rfl, rfl, rfl⟩

/-- Claim C2 (amended): on a two-sample even split the aggregated invite
decision equals the decision of the first verdict in input order
(`[yes, no]` gives `yes`, `[no, yes]` gives `no`). -/
theorem C2_tie_first_seen :
    (∀ v1 v2 agg, v1.invite = "yes" → v2.invite = "no" →
      aggregate_cv_scores [v1, v2] = some agg → agg.invite = "yes") ∧
    (∀ v1 v2 agg, v1.invite = "no" → v2.invite = "yes" →
      aggregate_cv_scores [v1, v2] = some agg → agg.invite = "no") := by
  constructor
  · intro v1 v2 agg h1 h2 hagg
    have hf := (aggregate_ok_fields v1 [v2] agg hagg).2.2.1
    rw [hf]
    simp only [List.map_cons, List.map_nil, h1, h2]
    decide
  · intro v1 v2 agg h1 h2 hagg
    have hf := (aggregate_ok_fields v1 [v2] agg hagg).2.2.1
    rw [hf]
    simp only [List.map_cons, List.map_nil, h1, h2]
    decide

theorem C2_witness : c2agg.invite = "yes" :=
  C2_tie_first_seen.1 c2y c2n c2agg rfl rfl rfl

/-- Claim C3 (counterexample): aggregating two per-sample verdicts with
disjoint 3-element strengths yields an aggregated verdict carrying 4
strengths, violating `len(strengths) == 3`. -/
theorem C3_counterexample :
    v31.strengths.length = 3 ∧ v32.strengths.length = 3 ∧
    (aggregate_cv_scores [v31, v32]).map (fun a => a.strengths.length) = some 4 :=
  ⟨rfl, rfl, rfl⟩

/-- Claim C3 (amended): per-sample verdicts satisfy all three invariants
(score bounds, invite in `{yes, no}`, strengths/gaps of length exactly 3);
aggregated verdicts keep the score bounds and one of the input invite
decisions but carry at most 4 — possibly fewer than 3 — strengths/gaps
after deduplication and truncation; ranking entries keep score bounds and
invite membership while their list lengths are not validated. -/
theorem C3_verdict_invariants :
    (∀ d v, processVerdict d = .ok v →
      (0 ≤ v.fit_score ∧ v.fit_score ≤ 1) ∧ (v.invite = "yes" ∨ v.invite = "no") ∧
      v.strengths.length = 3 ∧ v.gaps.length = 3) ∧
    (∀ r rs agg, aggregate_cv_scores (r :: rs) = some agg →
      (∀ x ∈ r :: rs, 0 ≤ x.fit_score ∧ x.fit_score ≤ 1) →
      (0 ≤ agg.fit_score ∧ agg.fit_score ≤ 1) ∧
      (∃ x ∈ r :: rs, agg.invite = x.invite) ∧
      agg.strengths.length ≤ 4 ∧ agg.gaps.length ≤ 4) ∧
    (∀ d r, validateRankingResult d = .ok r →
      ∀ e ∈ r.ranking, (0 ≤ e.fit_score ∧ e.fit_score ≤ 1) ∧
        (e.invite = "yes" ∨ e.invite = "no")) := by
  refine ⟨?_, ?_, validateRankingResult_entries⟩
  · intro d v h
    have h2 := h
    simp only [processVerdict] at h2
    have hv := validateCVFit_ok _ _ h2
    have hf := processVerdict_fields d v h
    refine ⟨expectScore_ok _ _ hv.2.1, expectInvite_ok _ _ hv.2.2.1, ?_, ?_⟩
    · rw [hf.1]
      exact normalize_length _ 3
    · rw [hf.2]
      exact normalize_length _ 3
  · intro r rs agg hagg hb
    obtain ⟨_, hfit, hinv, hst, hgp, _⟩ := aggregate_ok_fields r rs agg hagg
    refine ⟨?_, ?_, ?_, ?_⟩
    · rw [hfit]
      simp only [List.map_cons]
      apply mean_unit
      intro y hy
      rcases List.mem_cons.mp hy with h | h
      · subst h
        exact hb r (by simp)
      · obtain ⟨x, hx, hxy⟩ := List.mem_map.mp h
        subst hxy
        exact hb x (by simp [hx])
    · rw [hinv]
      simp only [List.map_cons]
      have hm := most_common1_mem r.invite (rs.map CVFit.invite)
      rcases List.mem_cons.mp hm with h | h
      · exact ⟨r, by simp, h⟩
      · obtain ⟨x, hx, hxy⟩ := List.mem_map.mp h
        exact ⟨x, by simp [hx], hxy.symm⟩
    · rw [hst]
      simp only [List.length_take]
      omega
    · rw [hgp]
      simp only [List.length_take]
      omega

theorem C3_witness :
    (0 ≤ c3v.fit_score ∧ c3v.fit_score ≤ 1) ∧
    (c3v.invite = "yes" ∨ c3v.invite = "no") ∧
    c3v.strengths.length = 3 ∧ c3v.gaps.length = 3 :=
  C3_verdict_invariants.1 d3 c3v rfl

/-- Claim C4: `normalize_list_field` returns exactly 3 strings for every
input shape, each non-empty after trimming; inputs that are neither a
string nor a list yield 3 `Not specified` placeholders, and a bare string
behaves as the one-element list wrapping it (then filtered, padded with
the placeholder, and truncated to the first 3). -/
theorem C4_normalize_contract :
    (∀ v, (normalize_list_field v 3).length = 3) ∧
    (∀ v s, s ∈ normalize_list_field v 3 → pyStrip s ≠ "") ∧
    (∀ q, normalize_list_field (some (.num q)) 3 = List.replicate 3 NOT_SPECIFIED) ∧
    (normalize_list_field none 3 = List.replicate 3 NOT_SPECIFIED) ∧
    (∀ s, normalize_list_field (some (.str s)) 3 =
      normalize_list_field (some (.arr [.str s])) 3) :=
  ⟨fun v => normalize_length v 3, normalize_mem_nonblank,
   fun _ => rfl, rfl, fun _ => rfl⟩

theorem C4_witness : pyStrip NOT_SPECIFIED ≠ "" :=
  C4_normalize_contract.2.1 none NOT_SPECIFIED (by decide)

/-- Claim C5 (counterexample): the input `123` contains no brace-delimited
span, yet the Extractor returns it (a bare JSON scalar parses directly)
instead of failing with MalformedOutput. -/
theorem C5_counterexample :
    exceptIsError (extract_json "123") = false ∧ '{' ∉ "123".data :=
  ⟨rfl, by decide⟩

/-- Claim C5 (amended): the Extractor recovers the object from a
fenced-code block, from an object with an embedded control character, and
from an object preceded by prose; it fails with MalformedOutput on input
that neither parses directly nor contains a brace-delimited span —
a brace-less input that is itself valid JSON is returned, not rejected. -/
theorem C5_extractor :
    (extract_json "```json\n\x7b\"a\": \"b\"\x7d\n```" = .ok (.obj [("a", .str "b")])) ∧
    (extract_json "\x7b\"a\": \"b\x01c\"\x7d" = .ok (.obj [("a", .str "bc")])) ∧
    (extract_json "Here is the result: \x7b\"a\": \"b\"\x7d" =
      .ok (.obj [("a", .str "b")])) ∧
    (∀ s, json_loads (fencePre s) = none → '{' ∉ (fencePre s).data →
      extract_json s = .error "No JSON object found in model output.") := by
  refine ⟨rfl, rfl, rfl, ?_⟩
  intro s h1 h2
  unfold extract_json
  dsimp only
  rw [h1, braceSpan_none _ h2]

theorem C5_witness :
    extract_json "the oracle returned nothing useful" =
      .error "No JSON object found in model output." :=
  C5_extractor.2.2.2 "the oracle returned nothing useful" rfl (by decide)

/-- Claim C6: the aggregated `fit_score` equals the arithmetic mean of the
input scores, and on inputs 0.8, 0.6, 0.7 it is exactly 0.7 (floats
idealized as exact rationals; the concrete Python computation also yields
the double 0.7 here). -/
theorem C6_aggregate_mean :
    (∀ results agg, aggregate_cv_scores results = some agg →
      agg.fit_score = mean (results.map CVFit.fit_score)) ∧
    (aggregate_cv_scores [c6a, c6b, c6c]).map CVFit.fit_score = some ((7 : ℚ)/10) := by
  constructor
  · intro results agg h
    match results with
    | [] => simp [aggregate_cv_scores] at h
    | r :: rs => exact (aggregate_ok_fields r rs agg h).2.1
  · simp only [aggregate_cv_scores, Option.map_some']
    congr 1
    simp only [List.map_cons, List.map_nil, c6a, c6b, c6c, mean, List.sum_cons,
      List.sum_nil, List.length_cons, List.length_nil]
    norm_num

theorem C6_witness : c6agg.fit_score = mean ([c6a].map CVFit.fit_score) :=
  C6_aggregate_mean.1 [c6a] c6agg rfl

/-- Claim C7: if any step of the run fails — MalformedOutput or
InvalidVerdict during sampling, or InvalidRanking during ranking
validation — the run aborts before persistence: the persisted state (run
documents and metrics rows) is unchanged. -/
theorem C7_no_persist_on_error (numCvs n_samples : Nat)
    (run_name model : String) (ts : Nat) (oracle : Nat → String)
    (st : PersistState) (e : PipeError)
    (h : (runMain numCvs n_samples run_name model ts oracle st).2 = .error e) :
    (runMain numCvs n_samples run_name model ts oracle st).1 = st := by
  unfold runMain at h ⊢
  cases h1 : scoreCands oracle n_samples (List.range numCvs) with
  | error e1 => rfl
  | ok aggs =>
    rw [h1] at h
    cases h2 : extract_json (oracle (numCvs * n_samples)) with
    | error e2 => rfl
    | ok v =>
      rw [h2] at h
      cases v with
      | obj d =>
        dsimp only at h ⊢
        cases h3 : validateRankingResult d with
        | error e3 => rfl
        | ok result =>
          rw [h3] at h
          exact absurd h (by simp)
      | null => rfl
      | bool b => rfl
      | num q => rfl
      | str s => rfl
      | arr l => rfl

theorem C7_witness :
    (runMain 1 1 "v1" "m" 0 (fun _ => "garbage") ⟨[], []⟩).1 =
      (⟨[], []⟩ : PersistState) :=
  C7_no_persist_on_error 1 1 "v1" "m" 0 (fun _ => "garbage") ⟨[], []⟩
    (.malformedOutput "No JSON object found in model output.") rfl

/-- Claim C8 (counterexample): the aggregator takes no `candidate_id`
parameter; its output id is taken from the verdicts themselves — the same
two verdicts in the two orders produce the two different ids of their
respective first elements. -/
theorem C8_counterexample :
    (aggregate_cv_scores [c8a, c8b]).map CVFit.cv_id = some "idA" ∧
    (aggregate_cv_scores [c8b, c8a]).map CVFit.cv_id = some "idB" :=
  ⟨rfl, rfl⟩

/-- Claim C8 (amended): `aggregate_cv_scores` takes only the verdict list,
and the output `cv_id` equals the `cv_id` of the first input verdict (the
oracle-reported id, not a caller-supplied parameter). -/
theorem C8_id_from_first_verdict :
    ∀ r rs agg, aggregate_cv_scores (r :: rs) = some agg →
      agg.cv_id = r.cv_id :=
  fun r rs agg h => (aggregate_ok_fields r rs agg h).1

theorem C8_witness : c8agg.cv_id = c8a.cv_id :=
  C8_id_from_first_verdict c8a [] c8agg rfl

/-- Claim C9 (counterexample): on a singleton input whose strengths repeat,
aggregation deduplicates — `aggregate([v]) ≠ v` for a verdict with
strengths `[a, a, a]`. -/
theorem C9_counterexample :
    v9.strengths = ["a", "a", "a"] ∧
    (aggregate_cv_scores [v9]).map CVFit.strengths = some ["a"] :=
  ⟨rfl, rfl⟩

/-- Claim C9 (amended): aggregation of a singleton `[v]` returns `v`
itself provided the strengths and gaps of `v` are duplicate-free and have
at most 4 elements (for 3-element duplicate-free lists — the pipeline's
normal shape — this covers the claim; deduplication makes it fail
otherwise). -/
theorem C9_singleton_id (v : CVFit) (h1 : v.strengths.Nodup)
    (h2 : v.gaps.Nodup) (h3 : v.strengths.length ≤ 4)
    (h4 : v.gaps.length ≤ 4) :
    aggregate_cv_scores [v] = some v := by
  obtain ⟨cid, fit, inv, st, gp, rsn⟩ := v
  simp only [aggregate_cv_scores, List.map_cons, List.map_nil, mergeField,
    List.foldl_cons, List.foldl_nil]
  rw [dedupAppend_eq_append _ [] h1 (by simp),
      dedupAppend_eq_append _ [] h2 (by simp)]
  simp only [List.nil_append]
  rw [List.take_of_length_le h3, List.take_of_length_le h4,
      mean_singleton, most_common1_singleton]

theorem C9_witness : aggregate_cv_scores [c9v] = some c9v :=
  C9_singleton_id c9v (by decide) (by decide) (by decide) (by decide)

/-- Claim C10: when the `strengths` (resp. `gaps`) key is absent or holds
a value that is neither a string nor a list, the sampler does not fail
with InvalidVerdict: the field is replaced by exactly three
`Not specified` placeholders before schema validation and — the remaining
fields being valid — the verdict is accepted. -/
theorem C10_missing_fields_defaulted :
    (∀ d, RestValid d → illTypedField (dictGet d "strengths") →
      okStrengths (processVerdict d) = some (List.replicate 3 NOT_SPECIFIED)) ∧
    (∀ d, RestValid d → illTypedField (dictGet d "gaps") →
      okGaps (processVerdict d) = some (List.replicate 3 NOT_SPECIFIED)) := by
  constructor
  · intro d hr hill
    obtain ⟨v, hv, hs, _⟩ := processVerdict_ok d hr
    rw [hv]
    simp only [okStrengths]
    rw [hs, normalize_illTyped _ hill]
  · intro d hr hill
    obtain ⟨v, hv, _, hg⟩ := processVerdict_ok d hr
    rw [hv]
    simp only [okGaps]
    rw [hg, normalize_illTyped _ hill]

theorem C10_witness :
    okStrengths (processVerdict d10) = some (List.replicate 3 NOT_SPECIFIED) :=
  C10_missing_fields_defaulted.1 d10
    ⟨⟨"cv1", rfl⟩, ⟨1, rfl, by norm_num⟩, Or.inr rfl, ⟨"ok", rfl⟩⟩ trivial
